import Mathlib

/-!
Verification development for the srt-reblocker repository.

The repository consists of three Python files:
  * `src/timecode.py`  — two timecode value classes (`FrameTimecode`,
    `DecimalTimecode`) sharing comparison/arithmetic semantics through an
    abstract base class `TimecodeBase`;
  * `src/srt_block.py` — a record type `SrtBlock` for one subtitle cue;
  * `main.py`          — SRT parsing (`read_srt`), the greedy block merger
    (`rebuild_blocks`), renumbering, and formatting.

This file shallowly embeds those definitions in Lean: Python `int` fields
that are always non-negative become `Nat`; code paths that raise
`ValueError` become `Option`/`Except` failures; the mutable list/object
semantics of `rebuild_blocks` is additionally modelled by an explicit
store (`Nat → SrtBlock`) to reason about in-place mutation.
-/

/-! ## DecimalTimecode (src/timecode.py, class DecimalTimecode)

Python dataclass fields `hours, minutes, seconds, milliseconds` are
non-negative in every reachable construction, so they are `Nat` here; the
range checks performed by `__post_init__` (`minutes, seconds < 60`,
`milliseconds < 1000`, `hours ≥ 0`) are captured by the `Valid` predicate
and re-checked explicitly wherever the Python constructor could raise.
-/

structure DecimalTimecode where
  hours : Nat
  minutes : Nat
  seconds : Nat
  milliseconds : Nat
deriving DecidableEq, Repr

namespace DecimalTimecode

/-- Range conditions enforced by `DecimalTimecode.__post_init__`. -/
def Valid (t : DecimalTimecode) : Prop :=
  t.minutes < 60 ∧ t.seconds < 60 ∧ t.milliseconds < 1000

instance (t : DecimalTimecode) : Decidable t.Valid := by
  unfold Valid; infer_instance

/-- `DecimalTimecode.to_units`: total milliseconds. -/
def to_units (t : DecimalTimecode) : Nat :=
  t.milliseconds + t.seconds * 1000 + t.minutes * 60000 + t.hours * 3600000

/-- `DecimalTimecode.from_units`: decompose a total millisecond count.
The Python guard `total_ms < 0` cannot fire for a `Nat` argument. -/
def from_units (total_ms : Nat) : DecimalTimecode :=
  { milliseconds := total_ms % 1000
    seconds := total_ms / 1000 % 60
    minutes := total_ms / 1000 / 60 % 60
    hours := total_ms / 1000 / 60 / 60 }

/-- `TimecodeBase.__lt__` as inherited by `DecimalTimecode`: plain
comparison of elementary-unit counts (the Python code has no raise path
here). -/
def lt (a b : DecimalTimecode) : Bool :=
  a.to_units < b.to_units

/-- `TimecodeBase.__sub__` as inherited by `DecimalTimecode`:
`none` models the `ValueError` raised on a negative difference. -/
def sub (a b : DecimalTimecode) : Option DecimalTimecode :=
  if b.to_units ≤ a.to_units then some (from_units (a.to_units - b.to_units))
  else none

end DecimalTimecode

/-! ## Character-level helpers shared by the parsers

Python's `re` patterns on the fixed-width timecode formats, `str.strip`,
`str.replace` and `int()` are re-implemented structurally on `List Char`
so that the kernel can evaluate them on concrete inputs.
-/

/-- Python `str.strip()` (whitespace from both ends). -/
def trimChars (cs : List Char) : List Char :=
  ((cs.dropWhile Char.isWhitespace).reverse.dropWhile Char.isWhitespace).reverse

/-- Python `str.strip()` lifted to `String`. -/
def pyStrip (s : String) : String :=
  String.mk (trimChars s.data)

/-- Numeric value of a decimal digit character. -/
def digitVal (c : Char) : Nat := c.toNat - 48

/-- Two decimal digit characters as a number (the regex groups `\d{2}`). -/
def twoDigits (a b : Char) : Nat := 10 * digitVal a + digitVal b

/-- Three decimal digit characters as a number (the regex group `\d{3}`). -/
def threeDigits (a b c : Char) : Nat :=
  100 * digitVal a + 10 * digitVal b + digitVal c

/-- Match `^(\d{2}):(\d{2}):(\d{2}),(\d{3})$` (the pattern of
`DecimalTimecode.TIMECODE_PATTERN`) and return the four numeric fields. -/
def readDecFields (cs : List Char) : Option (Nat × Nat × Nat × Nat) :=
  match cs with
  | [h1, h2, c1, m1, m2, c2, s1, s2, c3, d1, d2, d3] =>
    if h1.isDigit && h2.isDigit && c1 = ':' && m1.isDigit && m2.isDigit &&
        c2 = ':' && s1.isDigit && s2.isDigit && c3 = ',' && d1.isDigit &&
        d2.isDigit && d3.isDigit then
      some (twoDigits h1 h2, twoDigits m1 m2, twoDigits s1 s2,
        threeDigits d1 d2 d3)
    else none
  | _ => none

/-- Match `^(\d{2}):(\d{2}):(\d{2}):(\d{2})$` (the pattern of
`FrameTimecode.TIMECODE_PATTERN`) and return the four numeric fields. -/
def readFrameFields (cs : List Char) : Option (Nat × Nat × Nat × Nat) :=
  match cs with
  | [h1, h2, c1, m1, m2, c2, s1, s2, c3, f1, f2] =>
    if h1.isDigit && h2.isDigit && c1 = ':' && m1.isDigit && m2.isDigit &&
        c2 = ':' && s1.isDigit && s2.isDigit && c3 = ':' && f1.isDigit &&
        f2.isDigit then
      some (twoDigits h1 h2, twoDigits m1 m2, twoDigits s1 s2,
        twoDigits f1 f2)
    else none
  | _ => none

/-- Digits of Python's `f"{n:02d}"`: for `n < 100` exactly the two decimal
digits (zero-padded), otherwise the full decimal representation. -/
def pad2 (n : Nat) : List Char :=
  if n < 100 then [Nat.digitChar (n / 10), Nat.digitChar (n % 10)]
  else (Nat.repr n).data

/-- Digits of Python's `f"{n:03d}"`: for `n < 1000` exactly the three
decimal digits (zero-padded), otherwise the full decimal representation. -/
def pad3 (n : Nat) : List Char :=
  if n < 1000 then
    [Nat.digitChar (n / 100), Nat.digitChar (n / 10 % 10),
      Nat.digitChar (n % 10)]
  else (Nat.repr n).data

namespace DecimalTimecode

/-- `DecimalTimecode.from_string`: strip, match the `HH:MM:SS,mmm`
pattern, then run the constructor's range validation; `none` models every
`ValueError` raise. -/
def from_string (s : String) : Option DecimalTimecode :=
  match readDecFields (trimChars s.data) with
  | none => none
  | some (h, m, sec, ms) =>
    if m < 60 && sec < 60 && ms < 1000 then
      some ⟨h, m, sec, ms⟩
    else none

/-- `DecimalTimecode.to_string`: `f"{h:02d}:{m:02d}:{s:02d},{ms:03d}"`. -/
def to_string (t : DecimalTimecode) : String :=
  String.mk (pad2 t.hours ++ ':' :: pad2 t.minutes ++ ':' :: pad2 t.seconds
    ++ ',' :: pad3 t.milliseconds)

end DecimalTimecode

/-! ## FrameTimecode (src/timecode.py, class FrameTimecode)

Comparison operators are inherited from `TimecodeBase` (except `__eq__`,
which `FrameTimecode` overrides); none of them has a raise path in the
source, unlike `__add__`/`__sub__`.  They are modelled with an
`Except String` result type so that the absence of a raised
frame-rate-mismatch error is a provable fact rather than an artifact of
the embedding.
-/

structure FrameTimecode where
  hours : Nat
  minutes : Nat
  seconds : Nat
  frames : Nat
  fps : Nat
deriving DecidableEq, Repr

namespace FrameTimecode

/-- Range conditions enforced by `FrameTimecode.__post_init__`. -/
def Valid (t : FrameTimecode) : Prop :=
  t.minutes < 60 ∧ t.seconds < 60 ∧ t.frames < t.fps

instance (t : FrameTimecode) : Decidable t.Valid := by
  unfold Valid; infer_instance

/-- `FrameTimecode.to_frames` (and `to_units`): total frame count. -/
def to_units (t : FrameTimecode) : Nat :=
  t.frames + t.seconds * t.fps + t.minutes * 60 * t.fps
    + t.hours * 3600 * t.fps

/-- `FrameTimecode.from_frames` (and `from_units`): decompose a total
frame count at a given fps.  The Python guard `total_frames < 0` cannot
fire for a `Nat` argument. -/
def from_units (total : Nat) (fps : Nat) : FrameTimecode :=
  { frames := total % fps
    seconds := total / fps % 60
    minutes := total / fps / 60 % 60
    hours := total / fps / 60 / 60
    fps := fps }

/-- `FrameTimecode.from_string`: strip, match `HH:MM:SS:FF`, clamp an
out-of-range frame field to 0 (`if frames >= fps: frames = 0`), then run
the constructor's range validation.  `none` models every `ValueError`. -/
def from_string (s : String) (fps : Nat) : Option FrameTimecode :=
  match readFrameFields (trimChars s.data) with
  | none => none
  | some (h, m, sec, f) =>
    let f2 := if f ≥ fps then 0 else f
    if m < 60 && sec < 60 && f2 < fps then
      some ⟨h, m, sec, f2, fps⟩
    else none

/-- `FrameTimecode.to_string`:
`f"{h:02d}:{m:02d}:{s:02d}:{f:02d}"`. -/
def to_string (t : FrameTimecode) : String :=
  String.mk (pad2 t.hours ++ ':' :: pad2 t.minutes ++ ':' :: pad2 t.seconds
    ++ ':' :: pad2 t.frames)

/-- `TimecodeBase.__lt__` as inherited by `FrameTimecode`.  The source
compares raw unit counts and has no raise path; the `Except` error
channel (modelling a Python exception) is therefore never used. -/
def lt (a b : FrameTimecode) : Except String Bool :=
  Except.ok (decide (a.to_units < b.to_units))

/-- `TimecodeBase.__le__` as inherited by `FrameTimecode`; no raise
path. -/
def le (a b : FrameTimecode) : Except String Bool :=
  Except.ok (decide (a.to_units ≤ b.to_units))

/-- `TimecodeBase.__gt__` as inherited by `FrameTimecode`; no raise
path. -/
def gt (a b : FrameTimecode) : Except String Bool :=
  Except.ok (decide (a.to_units > b.to_units))

/-- `TimecodeBase.__ge__` as inherited by `FrameTimecode`; no raise
path. -/
def ge (a b : FrameTimecode) : Except String Bool :=
  Except.ok (decide (a.to_units ≥ b.to_units))

/-- `FrameTimecode.__eq__` (the override): equal frame counts AND equal
fps; returns `False` — it does not raise — on an fps mismatch. -/
def beq (a b : FrameTimecode) : Except String Bool :=
  Except.ok (decide (a.to_units = b.to_units) && decide (a.fps = b.fps))

/-- `FrameTimecode.round_to_seconds`.  The Python guard is
`self.frames >= self.fps / 2` with float division; for integer `frames`
this is exactly `2 * frames ≥ fps`. -/
def round_to_seconds (t : FrameTimecode) : FrameTimecode :=
  if t.fps ≤ 2 * t.frames then
    from_units (t.to_units + (t.fps - t.frames)) t.fps
  else
    ⟨t.hours, t.minutes, t.seconds, 0, t.fps⟩

end FrameTimecode

namespace DecimalTimecode

/-- `DecimalTimecode.round_to_seconds`. -/
def round_to_seconds (t : DecimalTimecode) : DecimalTimecode :=
  if t.milliseconds ≥ 500 then
    from_units (t.to_units + (1000 - t.milliseconds))
  else
    ⟨t.hours, t.minutes, t.seconds, 0⟩

end DecimalTimecode

example : DecimalTimecode.from_string "01:02:03,004" =
    some { hours := 1, minutes := 2, seconds := 3, milliseconds := 4 } := by
  decide

example : (DecimalTimecode.from_string "01:02:03,004").map
    DecimalTimecode.to_units = some 3723004 := by decide

example : FrameTimecode.from_string "00:00:01:48" 25 =
    FrameTimecode.from_string "00:00:01:00" 25 := by decide

example : DecimalTimecode.from_string "00:99:00,000" = none := by decide

/-! ## SrtBlock (src/srt_block.py) and the block merger (main.py)

`SrtBlock` is a dataclass of an `int` index (Python `int`, so `Int`
here: the parser accepts negative index lines), two `DecimalTimecode`s
and a text.  The Python field `end` is `end_` here because `end` is a
Lean keyword.
-/

structure SrtBlock where
  index : Int
  begin : DecimalTimecode
  end_ : DecimalTimecode
  text : String
deriving DecidableEq, Repr

/-- The two in-place updates of the merger's inner loop body:
`this_block.text += " " + next_block.text; this_block.end =
next_block.end`. -/
def absorbBlock (cur next : SrtBlock) : SrtBlock :=
  { cur with text := cur.text ++ " " ++ next.text, end_ := next.end_ }

/-- Body of `rebuild_blocks` after the first `blocks.pop(0)`: `cur` is
`this_block`, `rest` the remaining input FIFO.  Each step recomputes
`current_length = this_block.end - this_block.begin` (whose `ValueError`
on a negative difference propagates as `none`), then either keeps
absorbing (`current_length < block_length` and input remains), or emits
`this_block` and continues the outer loop. -/
def rebuildGo : List SrtBlock → SrtBlock → DecimalTimecode →
    Option (List SrtBlock)
  | rest, cur, tgt =>
    match DecimalTimecode.sub cur.end_ cur.begin with
    | none => none
    | some len =>
      if DecimalTimecode.lt len tgt then
        match rest with
        | [] => some [cur]
        | next :: rest2 => rebuildGo rest2 (absorbBlock cur next) tgt
      else
        match rest with
        | [] => some [cur]
        | nb :: bs2 => Option.map (fun out => cur :: out) (rebuildGo bs2 nb tgt)

/-- `rebuild_blocks(blocks, block_length)` (main.py): `none` models the
`ValueError` a negative `end - begin` difference raises. -/
def rebuild_blocks (blocks : List SrtBlock) (block_length : DecimalTimecode) :
    Option (List SrtBlock) :=
  match blocks with
  | [] => some []
  | b :: bs => rebuildGo bs b block_length

/-- The renumbering loop in `main`:
`for i, block in enumerate(new_blocks): block.index = i`. -/
def recount (blocks : List SrtBlock) : List SrtBlock :=
  blocks.enum.map (fun p => { p.2 with index := Int.ofNat p.1 })

/-! ## Store-based model of `rebuild_blocks`

The Python merger mutates: it pops cues off the input list and extends
the popped leader objects in place.  To reason about object identity and
in-place mutation, the same algorithm is replayed over a store
`Nat → SrtBlock` of cue objects addressed by identifiers, the input list
being a list of identifiers.  The result carries the final store, the
final state of the input list, and the identifiers making up the output
list.
-/

/-- In-place `this_block.text += ...; this_block.end = ...` on the object
at address `curId`. -/
def absorbRef (store : Nat → SrtBlock) (curId nextId : Nat) :
    Nat → SrtBlock :=
  fun j => if j = curId then absorbBlock (store curId) (store nextId)
    else store j

/-- `rebuildGo` replayed on the store: identical control flow, reading
the current block through its address and mutating it in place. -/
def rebuildGoRef : List Nat → Nat → (Nat → SrtBlock) → DecimalTimecode →
    Option ((Nat → SrtBlock) × List Nat × List Nat)
  | rest, curId, store, tgt =>
    match DecimalTimecode.sub (store curId).end_ (store curId).begin with
    | none => none
    | some len =>
      if DecimalTimecode.lt len tgt then
        match rest with
        | [] => some (store, [], [curId])
        | next :: rest2 =>
          rebuildGoRef rest2 curId (absorbRef store curId next) tgt
      else
        match rest with
        | [] => some (store, [], [curId])
        | nb :: bs2 =>
          Option.map (fun r => (r.1, r.2.1, curId :: r.2.2))
            (rebuildGoRef bs2 nb store tgt)

/-- `rebuild_blocks` on the store model.  The middle component of the
result is what remains of the caller's input list when the function
returns. -/
def rebuild_blocks_ref (store : Nat → SrtBlock) (ids : List Nat)
    (tgt : DecimalTimecode) :
    Option ((Nat → SrtBlock) × List Nat × List Nat) :=
  match ids with
  | [] => some (store, [], [])
  | i :: is2 => rebuildGoRef is2 i store tgt

/-! ## The SRT parser (main.py, read_srt) -/

/-- Python `" ".join(strings)`: elements joined by single spaces. -/
def joinSpace : List String → String
  | [] => ""
  | [t] => t
  | t :: ts => t ++ " " ++ joinSpace ts

/-- Python `str.replace("...", "")`: drop non-overlapping occurrences of
`...`, scanning left to right. -/
def removeDotsChars : List Char → List Char
  | '.' :: '.' :: '.' :: rest => removeDotsChars rest
  | c :: rest => c :: removeDotsChars rest
  | [] => []

/-- `remove_dots` (main.py). -/
def remove_dots (t : String) : String :=
  String.mk (removeDotsChars t.data)

/-- Python `str.splitlines` restricted to `'\n'` separators (the file is
read in text mode, so line endings are normalised before this point).
On the empty list this returns `[[]]` where Python returns `[]`; the
caller strips first and treats both the same way (fewer than 3 lines). -/
def splitNl : List Char → List (List Char)
  | [] => [[]]
  | c :: rest =>
    let r := splitNl rest
    if c = '\n' then [] :: r else (c :: r.headD []) :: r.tail

/-- `raw.strip().splitlines()` for one raw block chunk. -/
def blockLines (raw : String) : List String :=
  (splitNl (trimChars raw.data)).map String.mk

/-- Python `int(...)`: optional sign followed by at least one decimal
digit.  (Python also accepts underscore digit grouping and non-ASCII
digits; nothing in this repository relies on that.) -/
def digitsToNat : List Char → Nat → Option Nat
  | [], acc => some acc
  | c :: rest, acc =>
    if c.isDigit then digitsToNat rest (10 * acc + digitVal c) else none

/-- Parse a (stripped) Python `int()` literal. -/
def parseInt (s : String) : Option Int :=
  match s.data with
  | [] => none
  | '-' :: rest =>
    if rest = [] then none
    else Option.map (fun n => -(n : Int)) (digitsToNat rest 0)
  | '+' :: rest =>
    if rest = [] then none
    else Option.map (fun n => (n : Int)) (digitsToNat rest 0)
  | cs => Option.map (fun n => (n : Int)) (digitsToNat cs 0)

/-- `TIMECODE_LINE_PATTERN` (main.py):
`^(\d{2}:\d{2}:\d{2},\d{3})\s*-->\s*(\d{2}:\d{2}:\d{2},\d{3})$`,
returning the two captured groups.  Both groups are fixed-width
(12 characters), so the greedy regex match is this deterministic scan. -/
def matchTcLine (s : String) : Option (String × String) :=
  let cs := s.data
  let g1 := cs.take 12
  if (readDecFields g1).isSome then
    match (cs.drop 12).dropWhile Char.isWhitespace with
    | '-' :: '-' :: '>' :: r2 =>
      let g2 := r2.dropWhile Char.isWhitespace
      if (readDecFields g2).isSome then some (String.mk g1, String.mk g2)
      else none
    | _ => none
  else none

/-- The distinct `ValueError`s `read_srt` can raise (they differ only in
message text in the source). -/
inductive ParseError
  /-- `int(lines[0].strip())` failed. -/
  | invalidIndex (line : String)
  /-- `TIMECODE_LINE_PATTERN` did not match line 2:
  `Invalid timecode line in block {index}: '{line}'`. -/
  | invalidTimecodeLine (index : Int) (line : String)
  /-- `Timecode.from_string` rejected a captured group. -/
  | invalidTimecode (s : String)
deriving DecidableEq, Repr

instance {ε α : Type} [DecidableEq ε] [DecidableEq α] :
    DecidableEq (Except ε α) := fun a b =>
  match a, b with
  | Except.error e, Except.error f => decidable_of_iff (e = f) (by simp)
  | Except.error _, Except.ok _ => isFalse (by simp)
  | Except.ok _, Except.error _ => isFalse (by simp)
  | Except.ok x, Except.ok y => decidable_of_iff (x = y) (by simp)

/-- The body of `read_srt`'s per-block loop on the block's line list:
skip blocks with fewer than 3 lines (`.ok none`), otherwise parse index,
timecode line and text, any failure aborting the whole parse. -/
def parseBlockLines : List String → Except ParseError (Option SrtBlock)
  | l0 :: l1 :: l2 :: rest =>
    match parseInt (pyStrip l0) with
    | none => Except.error (ParseError.invalidIndex (pyStrip l0))
    | some idx =>
      match matchTcLine (pyStrip l1) with
      | none => Except.error (ParseError.invalidTimecodeLine idx (pyStrip l1))
      | some (g1, g2) =>
        match DecimalTimecode.from_string g1 with
        | none => Except.error (ParseError.invalidTimecode g1)
        | some b =>
          match DecimalTimecode.from_string g2 with
          | none => Except.error (ParseError.invalidTimecode g2)
          | some e =>
            Except.ok (some ⟨idx, b, e, remove_dots (joinSpace (l2 :: rest))⟩)
  | _ => Except.ok none

/-- The body of `read_srt`'s per-block loop. -/
def parseRawBlock (raw : String) : Except ParseError (Option SrtBlock) :=
  parseBlockLines (blockLines raw)

/-- `read_srt` (main.py) over the raw block chunks.  The upstream
splitting of the file text into chunks —
`re.split(r'\n\s*\n', content.strip())` — is file-I/O glue applied
before this loop; the function takes the resulting chunk list. -/
def read_srt : List String → Except ParseError (List SrtBlock)
  | [] => Except.ok []
  | raw :: raws =>
    match parseRawBlock raw with
    | Except.error e => Except.error e
    | Except.ok none => read_srt raws
    | Except.ok (some b) =>
      match read_srt raws with
      | Except.error e => Except.error e
      | Except.ok bs => Except.ok (b :: bs)

/-- Shorthand for a cue running from `a` to `b` milliseconds. -/
def cueMs (i : Int) (a b : Nat) (txt : String) : SrtBlock :=
  ⟨i, DecimalTimecode.from_units a, DecimalTimecode.from_units b, txt⟩

example :
    rebuild_blocks
      [cueMs 1 0 10000 "a", cueMs 2 10000 30000 "b", cueMs 3 30000 70000 "c"]
      (DecimalTimecode.from_units 30000) =
    some [cueMs 1 0 30000 "a b", cueMs 3 30000 70000 "c"] := by decide

example :
    parseRawBlock "7\n01:02:03 -> 01:02:05\nhello" =
    Except.error (ParseError.invalidTimecodeLine 7 "01:02:03 -> 01:02:05") := by
  decide

example :
    parseRawBlock "3\n01:02:03,004 --> 01:02:05,006\nhello\nworld ..." =
    Except.ok (some ⟨3, ⟨1, 2, 3, 4⟩, ⟨1, 2, 5, 6⟩, "hello world "⟩) := by
  decide

example : parseRawBlock "12\n00:00:01,000 --> 00:00:02,000" =
    Except.ok none := by decide

/-! ## Arithmetic lemmas about the unit decompositions -/

namespace DecimalTimecode

theorem to_units_from_units (n : Nat) : (from_units n).to_units = n := by
  unfold from_units to_units
  dsimp only
  omega

theorem from_units_eval (h m s ms : Nat) (hm : m < 60) (hs : s < 60)
    (hms : ms < 1000) :
    from_units (ms + s * 1000 + m * 60000 + h * 3600000) =
      ⟨h, m, s, ms⟩ := by
  unfold from_units
  rw [mk.injEq]
  refine ⟨?_, ?_, ?_, ?_⟩ <;> omega

theorem from_units_valid (n : Nat) : (from_units n).Valid := by
  unfold from_units Valid
  dsimp only
  refine ⟨?_, ?_, ?_⟩ <;> omega

theorem to_units_fields (t : DecimalTimecode) :
    t.to_units =
      t.milliseconds + t.seconds * 1000 + t.minutes * 60000
        + t.hours * 3600000 := rfl

end DecimalTimecode

namespace FrameTimecode

theorem to_units_from_units_fps (n fps : Nat) (_hfps : 0 < fps) :
    (from_units n fps).to_units = n := by
  unfold from_units to_units
  simp only
  have h2 : n / fps % 60 + n / fps / 60 % 60 * 60 + n / fps / 60 / 60 * 3600
      = n / fps := by omega
  calc n % fps + n / fps % 60 * fps + n / fps / 60 % 60 * 60 * fps
        + n / fps / 60 / 60 * 3600 * fps
      = n % fps + (n / fps % 60 + n / fps / 60 % 60 * 60
          + n / fps / 60 / 60 * 3600) * fps := by ring
    _ = n % fps + n / fps * fps := by rw [h2]
    _ = n % fps + fps * (n / fps) := by ring
    _ = n := Nat.mod_add_div n fps

theorem from_units_eval_fps (h m s f fps : Nat) (hm : m < 60) (hs : s < 60)
    (hf : f < fps) :
    from_units (f + s * fps + m * 60 * fps + h * 3600 * fps) fps =
      ⟨h, m, s, f, fps⟩ := by
  have hfps : 0 < fps := Nat.zero_lt_of_lt hf
  have hT : f + s * fps + m * 60 * fps + h * 3600 * fps
      = f + (s + m * 60 + h * 3600) * fps := by ring
  have hdiv : (f + s * fps + m * 60 * fps + h * 3600 * fps) / fps
      = s + m * 60 + h * 3600 := by
    rw [hT, Nat.add_mul_div_right _ _ hfps, Nat.div_eq_of_lt hf,
      Nat.zero_add]
  have hmod : (f + s * fps + m * 60 * fps + h * 3600 * fps) % fps = f := by
    rw [hT, Nat.add_mul_mod_self_right, Nat.mod_eq_of_lt hf]
  unfold from_units
  rw [mk.injEq, hdiv, hmod]
  refine ⟨?_, ?_, ?_, rfl, rfl⟩ <;> omega

theorem to_units_fields_fps (t : FrameTimecode) :
    t.to_units =
      t.frames + t.seconds * t.fps + t.minutes * 60 * t.fps
        + t.hours * 3600 * t.fps := rfl

end FrameTimecode

/-! ## Claim C6: round_to_seconds -/

/-- C6.  For every validly constructed timecode of either variant,
`round_to_seconds` yields the timecode reconstructed (with exact
carrying through seconds, minutes and hours) from
`unitsPerSecond * (wholeSeconds + carry)` where the carry is 1 exactly
when the sub-second component is at least half the unit-per-second
granularity (`milliseconds ≥ 500`; `2 * frames ≥ fps`), and 0
otherwise; in particular `milliseconds = 500` rounds up and
`milliseconds = 499` rounds down. -/
theorem C6_round_to_seconds :
    (∀ t : DecimalTimecode, t.Valid →
      t.round_to_seconds =
        DecimalTimecode.from_units
          (1000 * (t.to_units / 1000 +
            if 500 ≤ t.milliseconds then 1 else 0))) ∧
    (∀ u : FrameTimecode, u.Valid →
      u.round_to_seconds =
        FrameTimecode.from_units
          (u.fps * (u.to_units / u.fps +
            if u.fps ≤ 2 * u.frames then 1 else 0)) u.fps) := by
  constructor
  · rintro ⟨h, m, s, ms⟩ ⟨hm, hs, hms⟩
    dsimp only at hm hs hms
    unfold DecimalTimecode.round_to_seconds
    simp only [DecimalTimecode.to_units_fields]
    dsimp only
    by_cases hc : 500 ≤ ms
    · rw [if_pos hc, if_pos hc]
      congr 1
      omega
    · rw [if_neg hc, if_neg hc]
      have harg : 1000 * ((ms + s * 1000 + m * 60000 + h * 3600000) / 1000
          + 0) = 0 + s * 1000 + m * 60000 + h * 3600000 := by omega
      rw [harg, DecimalTimecode.from_units_eval h m s 0 hm hs (by omega)]
  · rintro ⟨h, m, s, f, fps⟩ ⟨hm, hs, hf⟩
    dsimp only at hm hs hf
    have hfps : 0 < fps := Nat.zero_lt_of_lt hf
    have hfle : f ≤ fps := Nat.le_of_lt hf
    unfold FrameTimecode.round_to_seconds
    simp only [FrameTimecode.to_units_fields_fps]
    dsimp only
    have hdiv : (f + s * fps + m * 60 * fps + h * 3600 * fps) / fps
        = s + m * 60 + h * 3600 := by
      rw [show f + s * fps + m * 60 * fps + h * 3600 * fps
          = f + (s + m * 60 + h * 3600) * fps from by ring,
        Nat.add_mul_div_right _ _ hfps, Nat.div_eq_of_lt hf, Nat.zero_add]
    by_cases hc : fps ≤ 2 * f
    · rw [if_pos hc, if_pos hc]
      congr 1
      calc f + s * fps + m * 60 * fps + h * 3600 * fps + (fps - f)
          = f + (fps - f) + (s + m * 60 + h * 3600) * fps := by ring
        _ = fps + (s + m * 60 + h * 3600) * fps := by
            rw [Nat.add_sub_cancel' hfle]
        _ = fps * (s + m * 60 + h * 3600 + 1) := by ring
        _ = fps * ((f + s * fps + m * 60 * fps + h * 3600 * fps) / fps + 1)
            := by rw [hdiv]
    · rw [if_neg hc, if_neg hc]
      have harg : fps * ((f + s * fps + m * 60 * fps + h * 3600 * fps) / fps
          + 0) = 0 + s * fps + m * 60 * fps + h * 3600 * fps := by
        rw [hdiv]; ring
      rw [harg, FrameTimecode.from_units_eval_fps h m s 0 fps hm hs hfps]

/-- C6 witness: the boundary instances at one concrete input each —
`00:00:00,500` (valid) rounds up to `00:00:01,000`, and `00:00:00,499`
rounds down to `00:00:00,000`; similarly `frames = 13` at `fps = 25`
rounds up. -/
theorem C6_round_to_seconds_witness :
    DecimalTimecode.Valid ⟨0, 0, 0, 500⟩ ∧
    DecimalTimecode.round_to_seconds ⟨0, 0, 0, 500⟩ = ⟨0, 0, 1, 0⟩ ∧
    DecimalTimecode.Valid ⟨0, 0, 0, 499⟩ ∧
    DecimalTimecode.round_to_seconds ⟨0, 0, 0, 499⟩ = ⟨0, 0, 0, 0⟩ ∧
    FrameTimecode.Valid ⟨0, 0, 0, 13, 25⟩ ∧
    FrameTimecode.round_to_seconds ⟨0, 0, 0, 13, 25⟩ = ⟨0, 0, 1, 0, 25⟩ :=
  ⟨by decide,
    (C6_round_to_seconds.1 ⟨0, 0, 0, 500⟩ (by decide)).trans (by decide),
    by decide,
    (C6_round_to_seconds.1 ⟨0, 0, 0, 499⟩ (by decide)).trans (by decide),
    by decide,
    (C6_round_to_seconds.2 ⟨0, 0, 0, 13, 25⟩ (by decide)).trans (by decide)⟩

/-! ## Lemmas about the block merger -/

theorem DecimalTimecode.sub_eq_some {a b len : DecimalTimecode}
    (h : DecimalTimecode.sub a b = some len) :
    b.to_units ≤ a.to_units ∧ len.to_units = a.to_units - b.to_units := by
  unfold DecimalTimecode.sub at h
  by_cases hle : b.to_units ≤ a.to_units
  · rw [if_pos hle] at h
    refine ⟨hle, ?_⟩
    cases h
    rw [DecimalTimecode.to_units_from_units]
  · rw [if_neg hle] at h
    cases h

theorem DecimalTimecode.sub_isSome {a b : DecimalTimecode}
    (h : b.to_units ≤ a.to_units) :
    DecimalTimecode.sub a b =
      some (DecimalTimecode.from_units (a.to_units - b.to_units)) := by
  unfold DecimalTimecode.sub
  rw [if_pos h]

theorem rebuildGo_ne_nil :
    ∀ (rest : List SrtBlock) (cur : SrtBlock) (tgt : DecimalTimecode)
      (out : List SrtBlock), rebuildGo rest cur tgt = some out → out ≠ [] := by
  intro rest
  induction rest with
  | nil =>
    intro cur tgt out h
    simp only [rebuildGo] at h
    cases hsub : DecimalTimecode.sub cur.end_ cur.begin with
    | none => rw [hsub] at h; cases h
    | some len =>
      rw [hsub] at h
      by_cases hlt : DecimalTimecode.lt len tgt <;>
        simp only [hlt, if_true, if_false, Bool.false_eq_true] at h <;>
        (cases h; simp)
  | cons next rest2 ih =>
    intro cur tgt out h
    simp only [rebuildGo] at h
    cases hsub : DecimalTimecode.sub cur.end_ cur.begin with
    | none => rw [hsub] at h; cases h
    | some len =>
      rw [hsub] at h
      by_cases hlt : DecimalTimecode.lt len tgt
      · simp only [hlt, if_true] at h
        exact ih _ _ _ h
      · simp only [hlt, Bool.false_eq_true, if_false] at h
        cases hrec : rebuildGo rest2 next tgt with
        | none => rw [hrec] at h; cases h
        | some out2 =>
          rw [hrec] at h
          cases h
          simp

theorem DecimalTimecode.lt_iff (a b : DecimalTimecode) :
    DecimalTimecode.lt a b = true ↔ a.to_units < b.to_units := by
  unfold DecimalTimecode.lt
  exact decide_eq_true_iff

/-- Well-formed, chronologically ordered cue lists: each cue has
`begin ≤ end` (the data-model invariant of a cue) and consecutive cues do
not overlap backwards.  This is the shape `read_srt` produces from a
well-formed SRT file. -/
def orderedBlocks : List SrtBlock → Bool
  | [] => true
  | [b] => decide (b.begin.to_units ≤ b.end_.to_units)
  | b :: b2 :: rest =>
    decide (b.begin.to_units ≤ b.end_.to_units) &&
      decide (b.end_.to_units ≤ b2.begin.to_units) &&
      orderedBlocks (b2 :: rest)

theorem rebuildGo_dropLast_bound :
    ∀ (rest : List SrtBlock) (cur : SrtBlock) (tgt : DecimalTimecode)
      (out : List SrtBlock), rebuildGo rest cur tgt = some out →
      ∀ b ∈ out.dropLast,
        b.begin.to_units + tgt.to_units ≤ b.end_.to_units := by
  intro rest
  induction rest with
  | nil =>
    intro cur tgt out h b hb
    simp only [rebuildGo] at h
    cases hsub : DecimalTimecode.sub cur.end_ cur.begin with
    | none => rw [hsub] at h; cases h
    | some len =>
      rw [hsub] at h
      by_cases hlt : DecimalTimecode.lt len tgt <;>
        simp only [hlt, if_true, if_false, Bool.false_eq_true] at h <;>
        (cases h; simp at hb)
  | cons next rest2 ih =>
    intro cur tgt out h b hb
    simp only [rebuildGo] at h
    cases hsub : DecimalTimecode.sub cur.end_ cur.begin with
    | none => rw [hsub] at h; cases h
    | some len =>
      rw [hsub] at h
      by_cases hlt : DecimalTimecode.lt len tgt
      · simp only [hlt, if_true] at h
        exact ih _ _ _ h b hb
      · simp only [hlt, Bool.false_eq_true, if_false] at h
        cases hrec : rebuildGo rest2 next tgt with
        | none => rw [hrec] at h; cases h
        | some out2 =>
          rw [hrec] at h
          cases h
          cases hout2 : out2 with
          | nil => exact absurd hout2 (rebuildGo_ne_nil _ _ _ _ hrec)
          | cons o os =>
            subst hout2
            rw [List.dropLast_cons₂] at hb
            cases hb with
            | head =>
              obtain ⟨hle, hlen⟩ := DecimalTimecode.sub_eq_some hsub
              have htgt : ¬ len.to_units < tgt.to_units := by
                intro hc
                exact hlt ((DecimalTimecode.lt_iff len tgt).mpr hc)
              omega
            | tail _ hb2 => exact ih _ _ _ hrec b hb2

theorem rebuildGo_isSome :
    ∀ (rest : List SrtBlock) (cur : SrtBlock) (tgt : DecimalTimecode),
      orderedBlocks (cur :: rest) = true →
      (rebuildGo rest cur tgt).isSome = true := by
  intro rest
  induction rest with
  | nil =>
    intro cur tgt hord
    simp only [orderedBlocks, decide_eq_true_eq] at hord
    simp only [rebuildGo,
      DecimalTimecode.sub_isSome hord]
    by_cases hlt : DecimalTimecode.lt
        (DecimalTimecode.from_units (cur.end_.to_units - cur.begin.to_units))
        tgt <;>
      simp [hlt]
  | cons next rest2 ih =>
    intro cur tgt hord
    simp only [orderedBlocks, Bool.and_eq_true, decide_eq_true_eq] at hord
    obtain ⟨⟨hbe, hlink⟩, hrest⟩ := hord
    have hrest2 : orderedBlocks (next :: rest2) = true := hrest
    simp only [rebuildGo, DecimalTimecode.sub_isSome hbe]
    by_cases hlt : DecimalTimecode.lt
        (DecimalTimecode.from_units (cur.end_.to_units - cur.begin.to_units))
        tgt
    · simp only [hlt, if_true]
      apply ih
      have hne : next.begin.to_units ≤ next.end_.to_units := by
        cases rest2 with
        | nil => simpa [orderedBlocks] using hrest2
        | cons b3 rest3 =>
          simp only [orderedBlocks, Bool.and_eq_true, decide_eq_true_eq]
            at hrest2
          exact hrest2.1.1
      cases rest2 with
      | nil =>
        simp only [orderedBlocks, absorbBlock, decide_eq_true_eq]
        omega
      | cons b3 rest3 =>
        simp only [orderedBlocks, Bool.and_eq_true, decide_eq_true_eq]
          at hrest2 ⊢
        refine ⟨⟨?_, ?_⟩, hrest2.2⟩
        · simp only [absorbBlock]
          omega
        · simp only [absorbBlock]
          exact hrest2.1.2
    · simp only [hlt, Bool.false_eq_true, if_false]
      have := ih next tgt hrest2
      cases hrec : rebuildGo rest2 next tgt with
      | none => rw [hrec] at this; cases this
      | some out2 => simp

/-! ## Claim C1: merge duration invariant -/

/-- C1.  For every cue list and target duration: (a) in any output of
`rebuild_blocks`, every cue except possibly the last satisfies
`end - begin ≥ target_duration` (stated additively to avoid truncated
subtraction); (b) on well-formed ordered input the merger always returns
an output — in particular a final block shorter than the target is
emitted, not an error. -/
theorem C1_merge_duration_invariant (blocks : List SrtBlock)
    (tgt : DecimalTimecode) :
    (∀ out, rebuild_blocks blocks tgt = some out →
      ∀ b ∈ out.dropLast,
        b.begin.to_units + tgt.to_units ≤ b.end_.to_units) ∧
    (orderedBlocks blocks = true →
      (rebuild_blocks blocks tgt).isSome = true) := by
  constructor
  · intro out h b hb
    cases blocks with
    | nil =>
      simp only [rebuild_blocks] at h
      cases h
      simp at hb
    | cons b0 bs =>
      exact rebuildGo_dropLast_bound bs b0 tgt out h b hb
  · intro hord
    cases blocks with
    | nil => simp [rebuild_blocks]
    | cons b0 bs =>
      simp only [rebuild_blocks]
      exact rebuildGo_isSome bs b0 tgt hord

/-- C1 witness: three cues of 10 s, 20 s, 40 s with a 30 s target; cues
1–2 merge into one 30-second block (which meets the bound), the final
40-second block is emitted without error. -/
theorem C1_merge_duration_invariant_witness :
    (∀ b ∈ ([cueMs 1 0 30000 "a b", cueMs 3 30000 70000 "c"]).dropLast,
      b.begin.to_units + (DecimalTimecode.from_units 30000).to_units ≤
        b.end_.to_units) ∧
    (rebuild_blocks
      [cueMs 1 0 10000 "a", cueMs 2 10000 30000 "b", cueMs 3 30000 70000 "c"]
      (DecimalTimecode.from_units 30000)).isSome = true :=
  ⟨(C1_merge_duration_invariant
      [cueMs 1 0 10000 "a", cueMs 2 10000 30000 "b", cueMs 3 30000 70000 "c"]
      (DecimalTimecode.from_units 30000)).1
      [cueMs 1 0 30000 "a b", cueMs 3 30000 70000 "c"] (by decide),
    (C1_merge_duration_invariant
      [cueMs 1 0 10000 "a", cueMs 2 10000 30000 "b", cueMs 3 30000 70000 "c"]
      (DecimalTimecode.from_units 30000)).2 (by decide)⟩

/-! ## Claim C4: merge count invariant and renumbering -/

theorem rebuildGo_length :
    ∀ (rest : List SrtBlock) (cur : SrtBlock) (tgt : DecimalTimecode)
      (out : List SrtBlock), rebuildGo rest cur tgt = some out →
      out.length ≤ rest.length + 1 := by
  intro rest
  induction rest with
  | nil =>
    intro cur tgt out h
    simp only [rebuildGo] at h
    cases hsub : DecimalTimecode.sub cur.end_ cur.begin with
    | none => rw [hsub] at h; cases h
    | some len =>
      rw [hsub] at h
      by_cases hlt : DecimalTimecode.lt len tgt <;>
        simp only [hlt, if_true, if_false, Bool.false_eq_true] at h <;>
        (cases h; simp)
  | cons next rest2 ih =>
    intro cur tgt out h
    simp only [rebuildGo] at h
    cases hsub : DecimalTimecode.sub cur.end_ cur.begin with
    | none => rw [hsub] at h; cases h
    | some len =>
      rw [hsub] at h
      by_cases hlt : DecimalTimecode.lt len tgt
      · simp only [hlt, if_true] at h
        have := ih _ _ _ h
        simpa using Nat.le_trans this (by simp)
      · simp only [hlt, Bool.false_eq_true, if_false] at h
        cases hrec : rebuildGo rest2 next tgt with
        | none => rw [hrec] at h; cases h
        | some out2 =>
          rw [hrec] at h
          cases h
          have := ih _ _ _ hrec
          simpa using this

theorem recount_length (l : List SrtBlock) : (recount l).length = l.length := by
  unfold recount
  rw [List.length_map, List.enum_length]

theorem recount_indices (l : List SrtBlock) :
    (recount l).map (fun b => b.index) =
      (List.range l.length).map Int.ofNat := by
  unfold recount
  rw [List.map_map, ← List.enum_map_fst l, List.map_map]
  rfl

/-- C4.  Whenever the merger produces an output and it is renumbered as
in `main` (`for i, block in enumerate(new_blocks): block.index = i`),
the output has at most as many cues as the input and its index column is
exactly `0, 1, 2, …` — the positions of the cues, independent of every
input `index` value. -/
theorem C4_merge_count_and_renumbering (blocks : List SrtBlock)
    (tgt : DecimalTimecode) (out : List SrtBlock)
    (h : rebuild_blocks blocks tgt = some out) :
    (recount out).length ≤ blocks.length ∧
    (recount out).map (fun b => b.index) =
      (List.range (recount out).length).map Int.ofNat := by
  refine ⟨?_, ?_⟩
  · rw [recount_length]
    cases blocks with
    | nil =>
      simp only [rebuild_blocks] at h
      cases h
      simp
    | cons b0 bs =>
      simp only [rebuild_blocks] at h
      simpa using rebuildGo_length bs b0 tgt out h
  · rw [recount_indices, recount_length]

/-- C4 witness: the 3-cue demo input merges to 2 cues, renumbered 0, 1 —
the input indices 1, 2, 3 do not survive. -/
theorem C4_merge_count_and_renumbering_witness :
    (recount [cueMs 1 0 30000 "a b", cueMs 3 30000 70000 "c"]).length ≤
      ([cueMs 1 0 10000 "a", cueMs 2 10000 30000 "b",
        cueMs 3 30000 70000 "c"] : List SrtBlock).length ∧
    (recount [cueMs 1 0 30000 "a b", cueMs 3 30000 70000 "c"]).map
        (fun b => b.index) =
      (List.range
        (recount [cueMs 1 0 30000 "a b", cueMs 3 30000 70000 "c"]).length).map
        Int.ofNat :=
  C4_merge_count_and_renumbering
    [cueMs 1 0 10000 "a", cueMs 2 10000 30000 "b", cueMs 3 30000 70000 "c"]
    (DecimalTimecode.from_units 30000)
    [cueMs 1 0 30000 "a b", cueMs 3 30000 70000 "c"] (by decide)

/-! ## Claim C8: zero target duration -/

/-- C8.  With a zero target duration the inner loop never runs: for any
input whose cues satisfy the cue invariant `begin ≤ end`, the merger
returns the input list itself (so the final, renumbered output equals the
input modulo renumbering). -/
theorem C8_zero_target_no_merging (blocks : List SrtBlock)
    (tgt : DecimalTimecode) (htgt : tgt.to_units = 0)
    (hwf : ∀ b ∈ blocks, b.begin.to_units ≤ b.end_.to_units) :
    rebuild_blocks blocks tgt = some blocks := by
  cases blocks with
  | nil => simp [rebuild_blocks]
  | cons b0 bs =>
    simp only [rebuild_blocks]
    induction bs generalizing b0 with
    | nil =>
      have hbe := hwf b0 (by simp)
      simp only [rebuildGo, DecimalTimecode.sub_isSome hbe]
      have hlt : DecimalTimecode.lt
          (DecimalTimecode.from_units (b0.end_.to_units - b0.begin.to_units))
          tgt = false := by
        rw [← Bool.not_eq_true, DecimalTimecode.lt_iff]
        omega
      rw [hlt]
      simp
    | cons b1 bs2 ih =>
      have hbe := hwf b0 (by simp)
      simp only [rebuildGo, DecimalTimecode.sub_isSome hbe]
      have hlt : DecimalTimecode.lt
          (DecimalTimecode.from_units (b0.end_.to_units - b0.begin.to_units))
          tgt = false := by
        rw [← Bool.not_eq_true, DecimalTimecode.lt_iff]
        omega
      rw [hlt]
      simp only [Bool.false_eq_true, if_false]
      have hrec := ih b1 (fun b hb => hwf b (by
        cases hb with
        | head => simp
        | tail _ htl => exact List.mem_cons_of_mem b0 (List.mem_cons_of_mem b1 htl)))
      rw [hrec]
      rfl

/-- C8 witness: two one-second cues with a zero target pass through
unmerged. -/
theorem C8_zero_target_no_merging_witness :
    (DecimalTimecode.from_units 0).to_units = 0 ∧
    rebuild_blocks [cueMs 1 0 1000 "a", cueMs 2 1000 2000 "b"]
      (DecimalTimecode.from_units 0) =
      some [cueMs 1 0 1000 "a", cueMs 2 1000 2000 "b"] :=
  ⟨by decide,
    C8_zero_target_no_merging [cueMs 1 0 1000 "a", cueMs 2 1000 2000 "b"]
      (DecimalTimecode.from_units 0) (by decide) (by decide)⟩

/-! ## Claim C9: the output is a partition of the input into groups -/

/-- The block the merger would build from the non-empty input group
`c :: g`: the leader's `index` and `begin`, the last member's `end`, and
all texts joined by single spaces. -/
def mergeGroup (c : SrtBlock) (g : List SrtBlock) : SrtBlock :=
  ⟨c.index, c.begin, ((c :: g).getLast (List.cons_ne_nil c g)).end_,
    joinSpace ((c :: g).map (fun b => b.text))⟩

theorem joinSpace_glue (a b : String) (l : List String) :
    joinSpace ((a ++ " " ++ b) :: l) = a ++ " " ++ joinSpace (b :: l) := by
  cases l with
  | nil => rfl
  | cons c cl =>
    show a ++ " " ++ b ++ " " ++ joinSpace (c :: cl) =
      a ++ " " ++ (b ++ " " ++ joinSpace (c :: cl))
    simp [String.append_assoc]

theorem mergeGroup_nil (c : SrtBlock) : mergeGroup c [] = c := by
  cases c
  rfl

theorem mergeGroup_absorb (cur next : SrtBlock) (pre : List SrtBlock) :
    mergeGroup (absorbBlock cur next) pre = mergeGroup cur (next :: pre) := by
  unfold mergeGroup absorbBlock
  rw [SrtBlock.mk.injEq]
  refine ⟨rfl, rfl, ?_, ?_⟩
  · cases pre with
    | nil => rfl
    | cons p ps =>
      rw [List.getLast_cons (List.cons_ne_nil p ps),
        List.getLast_cons (List.cons_ne_nil next (p :: ps)),
        List.getLast_cons (List.cons_ne_nil p ps)]
  · show joinSpace ((cur.text ++ " " ++ next.text) ::
        pre.map (fun b => b.text)) =
      joinSpace (cur.text :: next.text :: pre.map (fun b => b.text))
    rw [joinSpace_glue]
    rfl

theorem rebuildGo_partition :
    ∀ (rest : List SrtBlock) (cur : SrtBlock) (tgt : DecimalTimecode)
      (out : List SrtBlock), rebuildGo rest cur tgt = some out →
      ∃ (pre : List SrtBlock) (groups : List (SrtBlock × List SrtBlock)),
        rest = pre ++ (groups.map (fun g => g.1 :: g.2)).flatten ∧
        out = mergeGroup cur pre ::
          groups.map (fun g => mergeGroup g.1 g.2) := by
  intro rest
  induction rest with
  | nil =>
    intro cur tgt out h
    simp only [rebuildGo] at h
    cases hsub : DecimalTimecode.sub cur.end_ cur.begin with
    | none => rw [hsub] at h; cases h
    | some len =>
      rw [hsub] at h
      by_cases hlt : DecimalTimecode.lt len tgt <;>
        simp only [hlt, if_true, if_false, Bool.false_eq_true] at h <;>
        (cases h; exact ⟨[], [], by simp, by simp [mergeGroup_nil]⟩)
  | cons next rest2 ih =>
    intro cur tgt out h
    simp only [rebuildGo] at h
    cases hsub : DecimalTimecode.sub cur.end_ cur.begin with
    | none => rw [hsub] at h; cases h
    | some len =>
      rw [hsub] at h
      by_cases hlt : DecimalTimecode.lt len tgt
      · simp only [hlt, if_true] at h
        obtain ⟨pre2, groups, hrest, hout⟩ := ih _ _ _ h
        refine ⟨next :: pre2, groups, ?_, ?_⟩
        · rw [List.cons_append, ← hrest]
        · rw [hout, mergeGroup_absorb]
      · simp only [hlt, Bool.false_eq_true, if_false] at h
        cases hrec : rebuildGo rest2 next tgt with
        | none => rw [hrec] at h; cases h
        | some out2 =>
          rw [hrec] at h
          cases h
          obtain ⟨pre2, groups2, hrest, hout⟩ := ih _ _ _ hrec
          refine ⟨[], (next, pre2) :: groups2, ?_, ?_⟩
          · simp only [List.nil_append, List.map_cons, List.flatten_cons]
            rw [hrest]
            simp [List.append_assoc]
          · rw [hout]
            simp [mergeGroup_nil]

/-- C9.  Every merger output arises from a partition of the input into
consecutive non-empty groups (each represented as leader + tail): the
input is the concatenation of the groups in order, and each output block
is exactly its group's leader `begin` (and `index`), the group's last
`end`, and the space-joined concatenation of the group's texts in input
order. -/
theorem C9_output_partitions_input (blocks : List SrtBlock)
    (tgt : DecimalTimecode) (out : List SrtBlock)
    (h : rebuild_blocks blocks tgt = some out) :
    ∃ groups : List (SrtBlock × List SrtBlock),
      blocks = (groups.map (fun g => g.1 :: g.2)).flatten ∧
      out = groups.map (fun g => mergeGroup g.1 g.2) := by
  cases blocks with
  | nil =>
    simp only [rebuild_blocks] at h
    cases h
    exact ⟨[], by simp, by simp⟩
  | cons b0 bs =>
    simp only [rebuild_blocks] at h
    obtain ⟨pre, groups2, hrest, hout⟩ := rebuildGo_partition bs b0 tgt out h
    refine ⟨(b0, pre) :: groups2, ?_, ?_⟩
    · simp only [List.map_cons, List.flatten_cons]
      rw [hrest]
      simp
    · rw [hout]
      rfl

/-- C9 witness: in the 3-cue demo the groups are `[cue1, cue2]` and
`[cue3]`. -/
theorem C9_output_partitions_input_witness :
    ∃ groups : List (SrtBlock × List SrtBlock),
      ([cueMs 1 0 10000 "a", cueMs 2 10000 30000 "b",
        cueMs 3 30000 70000 "c"] : List SrtBlock) =
        (groups.map (fun g => g.1 :: g.2)).flatten ∧
      ([cueMs 1 0 30000 "a b", cueMs 3 30000 70000 "c"] : List SrtBlock) =
        groups.map (fun g => mergeGroup g.1 g.2) :=
  C9_output_partitions_input
    [cueMs 1 0 10000 "a", cueMs 2 10000 30000 "b", cueMs 3 30000 70000 "c"]
    (DecimalTimecode.from_units 30000)
    [cueMs 1 0 30000 "a b", cueMs 3 30000 70000 "c"] (by decide)

/-! ## Claim C10: destructive consumption and in-place mutation -/

theorem absorbRef_at_cur (store : Nat → SrtBlock) (curId nextId : Nat) :
    absorbRef store curId nextId curId =
      absorbBlock (store curId) (store nextId) := by
  unfold absorbRef
  rw [if_pos rfl]

theorem absorbRef_at_other (store : Nat → SrtBlock) (curId nextId j : Nat)
    (h : j ≠ curId) : absorbRef store curId nextId j = store j := by
  unfold absorbRef
  rw [if_neg h]

theorem rebuildGoRef_spec :
    ∀ (rest : List Nat) (curId : Nat) (store : Nat → SrtBlock)
      (tgt : DecimalTimecode), (curId :: rest).Nodup →
      (rebuildGoRef rest curId store tgt = none ∧
        rebuildGo (rest.map store) (store curId) tgt = none) ∨
      ∃ (store2 : Nat → SrtBlock) (out : List Nat),
        rebuildGoRef rest curId store tgt = some (store2, [], out) ∧
        out.Sublist (curId :: rest) ∧
        out.head? = some curId ∧
        (∀ j, j ∉ curId :: rest → store2 j = store j) ∧
        rebuildGo (rest.map store) (store curId) tgt =
          some (out.map store2) := by
  intro rest
  induction rest with
  | nil =>
    intro curId store tgt _
    simp only [rebuildGoRef, List.map_nil, rebuildGo]
    cases hsub : DecimalTimecode.sub (store curId).end_ (store curId).begin with
    | none => exact Or.inl ⟨rfl, rfl⟩
    | some len =>
      by_cases hlt : DecimalTimecode.lt len tgt <;>
        [skip; skip] <;>
        simp only [hlt, if_true, if_false, Bool.false_eq_true] <;>
        exact Or.inr ⟨store, [curId], rfl, List.Sublist.refl _, rfl,
          fun j _ => rfl, rfl⟩
  | cons next rest2 ih =>
    intro curId store tgt hnd
    have hcurnot : curId ∉ next :: rest2 := by
      have := List.nodup_cons.mp hnd
      exact this.1
    have hnd2 : (next :: rest2).Nodup := (List.nodup_cons.mp hnd).2
    simp only [rebuildGoRef, List.map_cons, rebuildGo]
    cases hsub : DecimalTimecode.sub (store curId).end_ (store curId).begin with
    | none => exact Or.inl ⟨rfl, rfl⟩
    | some len =>
      by_cases hlt : DecimalTimecode.lt len tgt
      · simp only [hlt, if_true]
        have hmapeq : rest2.map (absorbRef store curId next) =
            rest2.map store := by
          apply List.map_congr_left
          intro j hj
          apply absorbRef_at_other
          intro hjc
          exact hcurnot (hjc ▸ List.mem_cons_of_mem next hj)
        have hcureq : absorbRef store curId next curId =
            absorbBlock (store curId) (store next) :=
          absorbRef_at_cur store curId next
        have hndcur : (curId :: rest2).Nodup := by
          rw [List.nodup_cons] at hnd ⊢
          exact ⟨fun hc => hnd.1 (List.mem_cons_of_mem next hc),
            (List.nodup_cons.mp hnd.2).2⟩
        rcases ih curId (absorbRef store curId next) tgt hndcur with
          ⟨href, hgo⟩ | ⟨store3, out, href, hsl, hhd, hfr, hgo⟩
        · rw [hmapeq, hcureq] at hgo
          exact Or.inl ⟨href, hgo⟩
        · rw [hmapeq, hcureq] at hgo
          refine Or.inr ⟨store3, out, href, ?_, hhd, ?_, hgo⟩
          · exact hsl.trans
              (List.Sublist.cons₂ curId (List.sublist_cons_self next rest2))
          · intro j hj
            have hj2 : j ∉ curId :: rest2 := by
              intro hc
              cases List.mem_cons.mp hc with
              | inl h1 => exact hj (h1 ▸ List.mem_cons_self _ _)
              | inr h2 => exact hj (List.mem_cons_of_mem curId
                  (List.mem_cons_of_mem next h2))
            rw [hfr j hj2]
            apply absorbRef_at_other
            intro hjc
            exact hj (hjc ▸ List.mem_cons_self _ _)
      · simp only [hlt, Bool.false_eq_true, if_false]
        rcases ih next store tgt hnd2 with
          ⟨href, hgo⟩ | ⟨store3, out2, href, hsl, hhd, hfr, hgo⟩
        · rw [href, hgo]
          exact Or.inl ⟨rfl, rfl⟩
        · rw [href, hgo]
          refine Or.inr ⟨store3, curId :: out2, rfl, ?_, rfl, ?_, ?_⟩
          · exact List.Sublist.cons₂ curId hsl
          · intro j hj
            exact hfr j (fun hc => hj (List.mem_cons_of_mem curId hc))
          · simp only [Option.map_some', List.map_cons]
            rw [hfr curId hcurnot]

/-- C10.  For distinct cue objects (addresses), when the store-level
replay of `rebuild_blocks` succeeds: the caller's input list has been
drained to `[]`; the output list consists of a subsequence of the
original input objects (the group leaders, starting with the very first
input cue) — not fresh copies; and reading those same objects back
through the final (mutated) store yields exactly the functional merge
result, i.e. the leaders were extended in place. -/
theorem C10_in_place_mutation (store : Nat → SrtBlock) (ids : List Nat)
    (tgt : DecimalTimecode) (store2 : Nat → SrtBlock) (rem out : List Nat)
    (hnd : ids.Nodup)
    (h : rebuild_blocks_ref store ids tgt = some (store2, rem, out)) :
    rem = [] ∧ out.Sublist ids ∧ out.head? = ids.head? ∧
    rebuild_blocks (ids.map store) tgt = some (out.map store2) := by
  cases ids with
  | nil =>
    simp only [rebuild_blocks_ref] at h
    injection h with h1
    injection h1 with hstore h2
    injection h2 with hrem hout
    subst hstore
    subst hrem
    subst hout
    exact ⟨rfl, List.Sublist.refl _, rfl, rfl⟩
  | cons i is2 =>
    simp only [rebuild_blocks_ref] at h
    rcases rebuildGoRef_spec is2 i store tgt hnd with
      ⟨href, _⟩ | ⟨store3, out3, href, hsl, hhd, _, hgo⟩
    · rw [href] at h
      cases h
    · rw [href] at h
      injection h with h1
      injection h1 with hstore h2
      injection h2 with hrem hout
      subst hstore
      subst hrem
      subst hout
      exact ⟨rfl, hsl, hhd, hgo⟩

/-- A concrete 3-object store for the C10 witness. -/
def demoStore : Nat → SrtBlock := fun j =>
  if j = 0 then cueMs 1 0 10000 "a"
  else if j = 1 then cueMs 2 10000 30000 "b"
  else cueMs 3 30000 70000 "c"

/-- C10 witness: objects 0, 1, 2 with a 30 s target; the input list ends
empty, the surviving objects are 0 and 2 (0 absorbed 1 in place), and
reading them through the mutated store matches the functional merger. -/
theorem C10_in_place_mutation_witness :
    ([] : List Nat) = ([] : List Nat) ∧
    List.Sublist [0, 2] [0, 1, 2] ∧
    ([0, 2] : List Nat).head? = ([0, 1, 2] : List Nat).head? ∧
    rebuild_blocks (([0, 1, 2] : List Nat).map demoStore)
      (DecimalTimecode.from_units 30000) =
      some (([0, 2] : List Nat).map (absorbRef demoStore 0 1)) :=
  C10_in_place_mutation demoStore [0, 1, 2] (DecimalTimecode.from_units 30000)
    (absorbRef demoStore 0 1) [] [0, 2] (by decide) (by rfl)

/-! ## Claim C7: short blocks are dropped, bad timecode lines are fatal -/

theorem parseRawBlock_short (raw : String)
    (h : (blockLines raw).length < 3) :
    parseRawBlock raw = Except.ok none := by
  unfold parseRawBlock
  cases hbl : blockLines raw with
  | nil => rfl
  | cons l0 t0 =>
    cases t0 with
    | nil => rfl
    | cons l1 t1 =>
      cases t1 with
      | nil => rfl
      | cons l2 t2 =>
        rw [hbl] at h
        simp only [List.length_cons] at h
        omega

theorem read_srt_skips_short (pre post : List String) (raw : String)
    (h : (blockLines raw).length < 3) :
    read_srt (pre ++ raw :: post) = read_srt (pre ++ post) := by
  induction pre with
  | nil =>
    simp only [List.nil_append, read_srt, parseRawBlock_short raw h]
  | cons p pre2 ih =>
    simp only [List.cons_append, read_srt, List.append_eq]
    rw [ih]

/-- C7.  (a) A raw block whose stripped text has fewer than 3 lines is
silently dropped: the parse of any chunk list containing it equals the
parse without it, no error.  (b) A block with at least 3 lines, a
parsable integer index, and a second line not matching the
`TIMECODE --> TIMECODE` pattern aborts with an error that carries that
block's index and the offending line. -/
theorem C7_parser_error_asymmetry :
    (∀ (pre post : List String) (raw : String),
      (blockLines raw).length < 3 →
      read_srt (pre ++ raw :: post) = read_srt (pre ++ post)) ∧
    (∀ (raw l0 l1 l2 : String) (ls : List String) (idx : Int),
      blockLines raw = l0 :: l1 :: l2 :: ls →
      parseInt (pyStrip l0) = some idx →
      matchTcLine (pyStrip l1) = none →
      parseRawBlock raw =
        Except.error (ParseError.invalidTimecodeLine idx (pyStrip l1))) := by
  constructor
  · exact read_srt_skips_short
  · intro raw l0 l1 l2 ls idx hbl hidx htc
    unfold parseRawBlock
    rw [hbl]
    simp only [parseBlockLines, hidx, htc]

/-- C7 witness: a 2-line block (index + timecode line, no text) is
dropped without error, while the single-dash arrow line
`01:02:03 -> 01:02:05` in a 3-line block raises the fatal error naming
block 7. -/
theorem C7_parser_error_asymmetry_witness :
    read_srt ["12\n00:00:01,000 --> 00:00:02,000"] = read_srt [] ∧
    parseRawBlock "7\n01:02:03 -> 01:02:05\nhello" =
      Except.error
        (ParseError.invalidTimecodeLine 7 "01:02:03 -> 01:02:05") :=
  ⟨C7_parser_error_asymmetry.1 [] []
      "12\n00:00:01,000 --> 00:00:02,000" (by decide),
    (C7_parser_error_asymmetry.2 "7\n01:02:03 -> 01:02:05\nhello"
      "7" "01:02:03 -> 01:02:05" "hello" [] 7 (by decide) (by decide)
      (by decide)).trans (by decide)⟩

/-! ## Claim C3: comparisons across differing frame rates

The claim says such comparisons fail with a frame-rate-mismatch error.
In the source only `__add__`/`__sub__` check `fps`; the inherited
`__lt__`/`__le__`/`__gt__`/`__ge__` compare raw frame counts without any
check, and the overridden `__eq__` returns `False` on an fps mismatch —
none of them raises.
-/

/-- C3 counterexample: 10 frames at 50 fps (0.2 s) versus 6 frames at
25 fps (0.24 s).  Every comparison returns an ordinary Boolean result —
no error — and the ordering follows the raw frame counts (10 > 6), the
opposite of the real durations. -/
theorem C3_counterexample :
    (⟨0, 0, 0, 10, 50⟩ : FrameTimecode).fps ≠
      (⟨0, 0, 0, 6, 25⟩ : FrameTimecode).fps ∧
    FrameTimecode.Valid ⟨0, 0, 0, 10, 50⟩ ∧
    FrameTimecode.Valid ⟨0, 0, 0, 6, 25⟩ ∧
    FrameTimecode.lt ⟨0, 0, 0, 10, 50⟩ ⟨0, 0, 0, 6, 25⟩ =
      Except.ok false ∧
    FrameTimecode.le ⟨0, 0, 0, 10, 50⟩ ⟨0, 0, 0, 6, 25⟩ =
      Except.ok false ∧
    FrameTimecode.gt ⟨0, 0, 0, 10, 50⟩ ⟨0, 0, 0, 6, 25⟩ =
      Except.ok true ∧
    FrameTimecode.ge ⟨0, 0, 0, 10, 50⟩ ⟨0, 0, 0, 6, 25⟩ =
      Except.ok true ∧
    FrameTimecode.beq ⟨0, 0, 0, 10, 50⟩ ⟨0, 0, 0, 6, 25⟩ =
      Except.ok false := by
  decide

/-- C3 (amended).  Frame-based `lt`/`le`/`gt`/`ge` never fail: across
differing `fps` they return the comparison of raw unit counts, and `eq`
returns `False` (not an error).  For equal `fps` the comparisons form a
total order consistent with `to_units`: exactly one of `lt`, `eq`, `gt`
returns true, and each comparison agrees with the order on
`to_units`. -/
theorem C3_comparison_amended :
    (∀ a b : FrameTimecode, a.fps ≠ b.fps →
      FrameTimecode.lt a b = Except.ok (decide (a.to_units < b.to_units)) ∧
      FrameTimecode.le a b = Except.ok (decide (a.to_units ≤ b.to_units)) ∧
      FrameTimecode.gt a b = Except.ok (decide (b.to_units < a.to_units)) ∧
      FrameTimecode.ge a b = Except.ok (decide (b.to_units ≤ a.to_units)) ∧
      FrameTimecode.beq a b = Except.ok false) ∧
    (∀ a b : FrameTimecode, a.fps = b.fps →
      (FrameTimecode.lt a b = Except.ok true ∨
        FrameTimecode.beq a b = Except.ok true ∨
        FrameTimecode.gt a b = Except.ok true) ∧
      ¬(FrameTimecode.lt a b = Except.ok true ∧
        FrameTimecode.beq a b = Except.ok true) ∧
      ¬(FrameTimecode.lt a b = Except.ok true ∧
        FrameTimecode.gt a b = Except.ok true) ∧
      ¬(FrameTimecode.beq a b = Except.ok true ∧
        FrameTimecode.gt a b = Except.ok true) ∧
      (FrameTimecode.lt a b = Except.ok true ↔ a.to_units < b.to_units) ∧
      (FrameTimecode.le a b = Except.ok true ↔ a.to_units ≤ b.to_units) ∧
      (FrameTimecode.gt a b = Except.ok true ↔ b.to_units < a.to_units) ∧
      (FrameTimecode.ge a b = Except.ok true ↔ b.to_units ≤ a.to_units) ∧
      (FrameTimecode.beq a b = Except.ok true ↔
        a.to_units = b.to_units)) := by
  constructor
  · intro a b hfps
    refine ⟨rfl, rfl, ?_, ?_, ?_⟩
    · unfold FrameTimecode.gt
      rfl
    · unfold FrameTimecode.ge
      rfl
    · unfold FrameTimecode.beq
      simp [hfps]
  · intro a b hfps
    have hlt : FrameTimecode.lt a b = Except.ok true ↔
        a.to_units < b.to_units := by
      unfold FrameTimecode.lt
      simp
    have hle : FrameTimecode.le a b = Except.ok true ↔
        a.to_units ≤ b.to_units := by
      unfold FrameTimecode.le
      simp
    have hgt : FrameTimecode.gt a b = Except.ok true ↔
        b.to_units < a.to_units := by
      unfold FrameTimecode.gt
      simp [gt_iff_lt]
    have hge : FrameTimecode.ge a b = Except.ok true ↔
        b.to_units ≤ a.to_units := by
      unfold FrameTimecode.ge
      simp [ge_iff_le]
    have hbeq : FrameTimecode.beq a b = Except.ok true ↔
        a.to_units = b.to_units := by
      unfold FrameTimecode.beq
      simp [hfps]
    refine ⟨?_, ?_, ?_, ?_, hlt, hle, hgt, hge, hbeq⟩
    · rcases Nat.lt_trichotomy a.to_units b.to_units with h | h | h
      · exact Or.inl (hlt.mpr h)
      · exact Or.inr (Or.inl (hbeq.mpr h))
      · exact Or.inr (Or.inr (hgt.mpr h))
    · rintro ⟨h1, h2⟩
      exact absurd (hbeq.mp h2) (Nat.ne_of_lt (hlt.mp h1))
    · rintro ⟨h1, h2⟩
      exact absurd (hgt.mp h2) (Nat.lt_asymm (hlt.mp h1))
    · rintro ⟨h1, h2⟩
      exact absurd (hbeq.mp h1) (Nat.ne_of_gt (hgt.mp h2))

/-- C3 witness: the amended theorem applied at differing-fps inputs
(`eq` returns false, no error) and at equal-fps inputs (one second at
25 fps is greater than 6 frames at 25 fps — trichotomy holds). -/
theorem C3_comparison_amended_witness :
    FrameTimecode.beq ⟨0, 0, 0, 10, 50⟩ ⟨0, 0, 0, 6, 25⟩ =
      Except.ok false ∧
    (FrameTimecode.lt ⟨0, 0, 1, 0, 25⟩ ⟨0, 0, 0, 6, 25⟩ = Except.ok true ∨
      FrameTimecode.beq ⟨0, 0, 1, 0, 25⟩ ⟨0, 0, 0, 6, 25⟩ =
        Except.ok true ∨
      FrameTimecode.gt ⟨0, 0, 1, 0, 25⟩ ⟨0, 0, 0, 6, 25⟩ =
        Except.ok true) :=
  ⟨(C3_comparison_amended.1 ⟨0, 0, 0, 10, 50⟩ ⟨0, 0, 0, 6, 25⟩
      (by decide)).2.2.2.2,
    (C3_comparison_amended.2 ⟨0, 0, 1, 0, 25⟩ ⟨0, 0, 0, 6, 25⟩
      (by decide)).1⟩

/-! ## Claim C5: out-of-range frame fields are clamped, not rejected -/

/-- C5.  When the frame pattern matches with numeric fields
`(h, m, sec, f)` whose minutes/seconds are in range and whose frame
field is out of range for the target fps (`f ≥ fps`, `fps > 0`), parsing
does not fail: the frame field is silently clamped to 0.  In particular
`"00:00:01:48"` at `fps = 25` parses to the same value as
`"00:00:01:00"`. -/
theorem C5_frame_field_clamped (s : String) (fps h m sec f : Nat)
    (hfps : 0 < fps)
    (hfields : readFrameFields (trimChars s.data) = some (h, m, sec, f))
    (hm : m < 60) (hs : sec < 60) (hf : fps ≤ f) :
    FrameTimecode.from_string s fps = some ⟨h, m, sec, 0, fps⟩ ∧
    FrameTimecode.from_string "00:00:01:48" 25 =
      FrameTimecode.from_string "00:00:01:00" 25 := by
  refine ⟨?_, by decide⟩
  unfold FrameTimecode.from_string
  rw [hfields]
  simp [hf, hm, hs, hfps]

/-- C5 witness: the concrete scenario from the spec — frame field 48 at
25 fps clamps to frame 0 and the parse succeeds. -/
theorem C5_frame_field_clamped_witness :
    FrameTimecode.from_string "00:00:01:48" 25 =
      some ⟨0, 0, 1, 0, 25⟩ ∧
    FrameTimecode.from_string "00:00:01:48" 25 =
      FrameTimecode.from_string "00:00:01:00" 25 :=
  C5_frame_field_clamped "00:00:01:48" 25 0 0 1 48 (by decide) (by decide)
    (by decide) (by decide) (by decide)

/-! ## Digit/character lemmas for the round-trip claims -/

theorem digitChar_isDigit : ∀ d : Nat, d < 10 →
    (Nat.digitChar d).isDigit = true := by decide

theorem digitChar_toNat : ∀ d : Nat, d < 10 →
    (Nat.digitChar d).toNat = 48 + d := by decide

theorem digitChar_not_ws : ∀ d : Nat, d < 10 →
    (Nat.digitChar d).isWhitespace = false := by decide

theorem twoDigits_digitChar (n : Nat) (h : n < 100) :
    twoDigits (Nat.digitChar (n / 10)) (Nat.digitChar (n % 10)) = n := by
  unfold twoDigits digitVal
  rw [digitChar_toNat (n / 10) (by omega), digitChar_toNat (n % 10) (by omega)]
  omega

theorem threeDigits_digitChar (n : Nat) (h : n < 1000) :
    threeDigits (Nat.digitChar (n / 100)) (Nat.digitChar (n / 10 % 10))
      (Nat.digitChar (n % 10)) = n := by
  unfold threeDigits digitVal
  rw [digitChar_toNat (n / 100) (by omega),
    digitChar_toNat (n / 10 % 10) (by omega),
    digitChar_toNat (n % 10) (by omega)]
  omega

theorem dropWhile_all_false {p : Char → Bool} :
    ∀ cs : List Char, (∀ c ∈ cs, p c = false) → cs.dropWhile p = cs := by
  intro cs h
  cases cs with
  | nil => rfl
  | cons a l =>
    rw [List.dropWhile_cons, h a (List.mem_cons_self a l)]
    simp

theorem trimChars_no_ws (cs : List Char)
    (h : ∀ c ∈ cs, c.isWhitespace = false) : trimChars cs = cs := by
  unfold trimChars
  rw [dropWhile_all_false cs h,
    dropWhile_all_false cs.reverse (fun c hc => h c (List.mem_reverse.mp hc)),
    List.reverse_reverse]

theorem pad2_eq (n : Nat) (h : n < 100) :
    pad2 n = [Nat.digitChar (n / 10), Nat.digitChar (n % 10)] := by
  unfold pad2
  rw [if_pos h]

theorem pad3_eq (n : Nat) (h : n < 1000) :
    pad3 n = [Nat.digitChar (n / 100), Nat.digitChar (n / 10 % 10),
      Nat.digitChar (n % 10)] := by
  unfold pad3
  rw [if_pos h]

theorem readDecFields_digits (h m s ms : Nat) (hh : h < 100) (hm : m < 100)
    (hs : s < 100) (hms : ms < 1000) :
    readDecFields [Nat.digitChar (h / 10), Nat.digitChar (h % 10), ':',
      Nat.digitChar (m / 10), Nat.digitChar (m % 10), ':',
      Nat.digitChar (s / 10), Nat.digitChar (s % 10), ',',
      Nat.digitChar (ms / 100), Nat.digitChar (ms / 10 % 10),
      Nat.digitChar (ms % 10)] = some (h, m, s, ms) := by
  simp only [readDecFields,
    digitChar_isDigit (h / 10) (by omega), digitChar_isDigit (h % 10) (by omega),
    digitChar_isDigit (m / 10) (by omega), digitChar_isDigit (m % 10) (by omega),
    digitChar_isDigit (s / 10) (by omega), digitChar_isDigit (s % 10) (by omega),
    digitChar_isDigit (ms / 100) (by omega),
    digitChar_isDigit (ms / 10 % 10) (by omega),
    digitChar_isDigit (ms % 10) (by omega),
    twoDigits_digitChar h hh, twoDigits_digitChar m hm,
    twoDigits_digitChar s hs, threeDigits_digitChar ms hms]
  simp

theorem readFrameFields_digits (h m s f : Nat) (hh : h < 100) (hm : m < 100)
    (hs : s < 100) (hf : f < 100) :
    readFrameFields [Nat.digitChar (h / 10), Nat.digitChar (h % 10), ':',
      Nat.digitChar (m / 10), Nat.digitChar (m % 10), ':',
      Nat.digitChar (s / 10), Nat.digitChar (s % 10), ':',
      Nat.digitChar (f / 10), Nat.digitChar (f % 10)] = some (h, m, s, f) := by
  simp only [readFrameFields,
    digitChar_isDigit (h / 10) (by omega), digitChar_isDigit (h % 10) (by omega),
    digitChar_isDigit (m / 10) (by omega), digitChar_isDigit (m % 10) (by omega),
    digitChar_isDigit (s / 10) (by omega), digitChar_isDigit (s % 10) (by omega),
    digitChar_isDigit (f / 10) (by omega), digitChar_isDigit (f % 10) (by omega),
    twoDigits_digitChar h hh, twoDigits_digitChar m hm,
    twoDigits_digitChar s hs, twoDigits_digitChar f hf]
  simp

theorem DecimalTimecode.from_string_to_string (t : DecimalTimecode)
    (hv : t.Valid) (hh : t.hours ≤ 99) :
    DecimalTimecode.from_string (DecimalTimecode.to_string t) = some t := by
  obtain ⟨h, m, s, ms⟩ := t
  obtain ⟨hm, hs, hms⟩ := hv
  have hm2 : m < 60 := hm
  have hs2 : s < 60 := hs
  have hms2 : ms < 1000 := hms
  have hh2 : h ≤ 99 := hh
  unfold DecimalTimecode.to_string DecimalTimecode.from_string
  rw [pad2_eq h (by omega), pad2_eq m (by omega), pad2_eq s (by omega),
    pad3_eq ms (by omega)]
  have hno : ∀ c ∈ [Nat.digitChar (h / 10), Nat.digitChar (h % 10), ':',
      Nat.digitChar (m / 10), Nat.digitChar (m % 10), ':',
      Nat.digitChar (s / 10), Nat.digitChar (s % 10), ',',
      Nat.digitChar (ms / 100), Nat.digitChar (ms / 10 % 10),
      Nat.digitChar (ms % 10)], c.isWhitespace = false := by
    intro c hc
    simp only [List.mem_cons, List.not_mem_nil, or_false] at hc
    rcases hc with rfl | rfl | rfl | rfl | rfl | rfl | rfl | rfl | rfl |
      rfl | rfl | rfl
    · exact digitChar_not_ws _ (by omega)
    · exact digitChar_not_ws _ (by omega)
    · rfl
    · exact digitChar_not_ws _ (by omega)
    · exact digitChar_not_ws _ (by omega)
    · rfl
    · exact digitChar_not_ws _ (by omega)
    · exact digitChar_not_ws _ (by omega)
    · rfl
    · exact digitChar_not_ws _ (by omega)
    · exact digitChar_not_ws _ (by omega)
    · exact digitChar_not_ws _ (by omega)
  dsimp only
  simp only [List.cons_append, List.nil_append]
  rw [trimChars_no_ws _ hno,
    readDecFields_digits h m s ms (by omega) (by omega) (by omega) hms2]
  simp [hm2, hs2, hms2]

theorem FrameTimecode.from_string_to_string_fps (u : FrameTimecode)
    (hv : u.Valid) (hh : u.hours ≤ 99) (hfr : u.frames ≤ 99) :
    FrameTimecode.from_string (FrameTimecode.to_string u) u.fps = some u := by
  obtain ⟨h, m, s, f, fps⟩ := u
  obtain ⟨hm, hs, hf⟩ := hv
  have hm2 : m < 60 := hm
  have hs2 : s < 60 := hs
  have hf2 : f < fps := hf
  have hh2 : h ≤ 99 := hh
  have hfr2 : f ≤ 99 := hfr
  unfold FrameTimecode.to_string FrameTimecode.from_string
  rw [pad2_eq h (by omega), pad2_eq m (by omega), pad2_eq s (by omega),
    pad2_eq f (by omega)]
  have hno : ∀ c ∈ [Nat.digitChar (h / 10), Nat.digitChar (h % 10), ':',
      Nat.digitChar (m / 10), Nat.digitChar (m % 10), ':',
      Nat.digitChar (s / 10), Nat.digitChar (s % 10), ':',
      Nat.digitChar (f / 10), Nat.digitChar (f % 10)],
      c.isWhitespace = false := by
    intro c hc
    simp only [List.mem_cons, List.not_mem_nil, or_false] at hc
    rcases hc with rfl | rfl | rfl | rfl | rfl | rfl | rfl | rfl | rfl |
      rfl | rfl
    · exact digitChar_not_ws _ (by omega)
    · exact digitChar_not_ws _ (by omega)
    · rfl
    · exact digitChar_not_ws _ (by omega)
    · exact digitChar_not_ws _ (by omega)
    · rfl
    · exact digitChar_not_ws _ (by omega)
    · exact digitChar_not_ws _ (by omega)
    · rfl
    · exact digitChar_not_ws _ (by omega)
    · exact digitChar_not_ws _ (by omega)
  dsimp only
  simp only [List.cons_append, List.nil_append]
  rw [trimChars_no_ws _ hno,
    readFrameFields_digits h m s f (by omega) (by omega) (by omega)
      (by omega)]
  have hnotge : ¬ f ≥ fps := by omega
  simp [hnotge, hm2, hs2, hf2]

/-! ## Claim C2: round-trips -/

/-- C2 counterexample: `DecimalTimecode(hours=100)` is validly
constructed (`__post_init__` only requires `hours ≥ 0`), but
`to_string` renders three-digit hours (`"100:00:00,000"`), which the
fixed-width `HH:MM:SS,mmm` pattern of `from_string` rejects — the
round-trip raises instead of returning the value, so the claim fails as
stated. -/
theorem C2_roundtrip_counterexample :
    DecimalTimecode.Valid ⟨100, 0, 0, 0⟩ ∧
    DecimalTimecode.from_string
      (DecimalTimecode.to_string ⟨100, 0, 0, 0⟩) = none := by
  constructor
  · decide
  · decide

/-- C2 (amended).  The string round-trip holds for every validly
constructed timecode whose rendered fields fit the fixed widths of the
parse pattern — `hours ≤ 99`, and for the frame variant also
`frames ≤ 99` (parsing at the same fps); for `hours ≥ 100` the
round-trip fails.  The unit round-trip `from_units(n).to_units() = n`
holds for every non-negative integer unconditionally (frame variant: for
positive fps, without which the Python division raises). -/
theorem C2_roundtrip_amended :
    (∀ t : DecimalTimecode, t.Valid → t.hours ≤ 99 →
      DecimalTimecode.from_string (DecimalTimecode.to_string t) = some t) ∧
    (∀ u : FrameTimecode, u.Valid → u.hours ≤ 99 → u.frames ≤ 99 →
      FrameTimecode.from_string (FrameTimecode.to_string u) u.fps = some u) ∧
    (∀ n : Nat, (DecimalTimecode.from_units n).to_units = n) ∧
    (∀ n fps : Nat, 0 < fps →
      (FrameTimecode.from_units n fps).to_units = n) :=
  ⟨DecimalTimecode.from_string_to_string,
    FrameTimecode.from_string_to_string_fps,
    DecimalTimecode.to_units_from_units,
    FrameTimecode.to_units_from_units_fps⟩

/-- C2 witness: concrete round-trips — `01:02:03,004`, `01:02:03:04` at
25 fps, and the unit counts 3723004 ms and 99 frames. -/
theorem C2_roundtrip_amended_witness :
    DecimalTimecode.from_string
      (DecimalTimecode.to_string ⟨1, 2, 3, 4⟩) = some ⟨1, 2, 3, 4⟩ ∧
    FrameTimecode.from_string
      (FrameTimecode.to_string ⟨1, 2, 3, 4, 25⟩) 25 =
        some ⟨1, 2, 3, 4, 25⟩ ∧
    (DecimalTimecode.from_units 3723004).to_units = 3723004 ∧
    (FrameTimecode.from_units 99 25).to_units = 99 :=
  ⟨C2_roundtrip_amended.1 ⟨1, 2, 3, 4⟩ (by decide) (by decide),
    C2_roundtrip_amended.2.1 ⟨1, 2, 3, 4, 25⟩ (by decide) (by decide)
      (by decide),
    C2_roundtrip_amended.2.2.1 3723004,
    C2_roundtrip_amended.2.2.2 99 25 (by decide)⟩
